import Mathlib

/-!
Shallow embedding of the update engine of the Dreamio updater
(src/src/main.rs): the per-entry archive processing of apply_update, the
download progress computation of download_file, the protocol fallback of
download_and_apply_update and get_latest_update_url, and the post-bootstrap
version-chain loop of update_task, together with theorems settling the
specification claims.

Conventions: strings are modelled as lists of characters; u64 arithmetic is
explicit modulo 2 to the 64; f64 arithmetic of the rate and ETA computation
is modelled exactly by rationals (the claims settled here only depend on
sign and zero-ness at scales where the f64 rounding error is irrelevant);
fallible I/O calls of the source are modelled by Except-valued oracle
parameters.
-/

namespace Dreamio

/-- Strings are modelled as lists of characters. -/
abbrev Str := List Char

/-- The character list of a Lean string literal. -/
def cs (s : String) : Str := s.data

/-- Rust str::contains for a literal pattern: true iff the pattern occurs
as a contiguous substring. -/
def contains_sub (pat : Str) : Str → Bool
  | [] => pat.isEmpty
  | c :: rest => List.isPrefixOf pat (c :: rest) || contains_sub pat rest

/-- Recursion core of replace_all; the fuel argument only makes the
recursion structural and never runs out, since every step consumes at
least one character and the fuel starts at the string length. -/
def replace_all_go (pat rep : Str) : Nat → Str → Str
  | _, [] => []
  | 0, s => s
  | fuel + 1, c :: rest =>
    if pat ≠ [] ∧ List.isPrefixOf pat (c :: rest) then
      rep ++ replace_all_go pat rep fuel (rest.drop (pat.length - 1))
    else c :: replace_all_go pat rep fuel rest

/-- Rust str::replace: replace every non-overlapping occurrence of the
pattern, scanning left to right. -/
def replace_all (pat rep : Str) (s : Str) : Str :=
  replace_all_go pat rep s.length s

/-- Rust str::ends_with for a string suffix. -/
def ends_with (suf n : Str) : Bool := List.isSuffixOf suf n

/-- Rust str::ends_with for a single character. -/
def ends_with_char (c : Char) (n : Str) : Bool := decide (n.getLast? = some c)

/-- Split a path at every slash (keeping empty chunks). -/
def split_on_slash : Str → List Str
  | [] => [[]]
  | c :: rest =>
    if c = '/' then [] :: split_on_slash rest
    else
      match split_on_slash rest with
      | [] => [[c]]
      | g :: gs => (c :: g) :: gs

/-- Rust Path::file_name for the slash-separated relative entry names:
the last normal path component (empty and current-directory components are
dropped), none for an empty path or a path terminating in a
parent-directory component.  Used by the self-file check of apply_update
(main.rs 785-791). -/
def path_file_name (n : Str) : Option Str :=
  let comps := (split_on_slash n).filter (fun c => decide (c ≠ [] ∧ c ≠ ['.']))
  match comps.getLast? with
  | none => none
  | some c => if c = ['.', '.'] then none else some c

/-- Rust PathBuf::with_extension of the empty extension, as used by
apply_update to strip the trailing .patch / .delete part of an entry name
(main.rs 808 and 837): the final dot-extension of the last path component
is dropped; the component is kept whole when it contains no dot, or when
its only dot is its leading character (the hidden-file rule of
Path::file_stem). -/
def with_extension_empty (n : Str) : Str :=
  match (n.reverse.takeWhile (fun c => decide (c ≠ '/'))).dropWhile
      (fun c => decide (c ≠ '.')) with
  | [] => n
  | _ :: stemR =>
    if stemR = [] then n
    else (stemR ++ n.reverse.dropWhile (fun c => decide (c ≠ '/'))).reverse

/-- Rust Path::parent for the relative entry names: the path with its
final component removed (none for the empty path).  Used by the
replacement branch of apply_update (main.rs 853). -/
def path_parent (n : Str) : Option Str :=
  if n = [] then none
  else some (((n.reverse.dropWhile (fun c => decide (c ≠ '/'))).dropWhile
    (fun c => decide (c = '/'))).reverse)

/-- Two to the 64, the modulus of u64 arithmetic. -/
def U64 : Nat := 18446744073709551616

/-- Wrapping u64 subtraction: the release-profile semantics of the
expression total_size - downloaded at main.rs 659 (a debug build panics
instead when the subtrahend exceeds the minuend). -/
def wrap_sub (a b : Nat) : Nat := (a % U64 + (U64 - b % U64)) % U64

/-- Instantaneous download rate of download_file (main.rs 652-656):
zero until a full second of wall-clock time has elapsed, otherwise
downloaded bytes divided by the elapsed seconds.  The f64 arithmetic is
modelled exactly by rationals. -/
def bytes_per_sec (downloaded elapsedNs : Nat) : ℚ :=
  if elapsedNs / 1000000000 > 0 then
    (downloaded : ℚ) / ((elapsedNs : ℚ) / 1000000000)
  else 0

/-- ETA in whole seconds as computed at main.rs 658-663: the remaining
byte count is the wrapping u64 subtraction of downloaded from total_size,
and the final f64-to-u64 conversion truncates toward zero and saturates. -/
def eta_secs (totalSize downloaded elapsedNs : Nat) : Nat :=
  let rate := bytes_per_sec downloaded elapsedNs
  let q : ℚ := if 0 < rate then ((wrap_sub totalSize downloaded : Nat) : ℚ) / rate else 0
  min (Int.toNat ⌊q⌋) (U64 - 1)

/-- One ProgressUpdate sample sent after a chunk read (main.rs 665-673). -/
structure Sample where
  downloaded : Nat
  total : Nat
  rate : ℚ
  eta : Nat
  elapsedNs : Nat
  deriving DecidableEq

/-- The chunk loop of download_file (main.rs 638-674): chunks is the list
of (positive) byte counts returned by successive reads, clock gives the
elapsed nanoseconds observed after the i-th chunk. -/
def download_file_go (totalSize : Nat) (clock : Nat → Nat) :
    Nat → Nat → List Nat → List Sample
  | _, _, [] => []
  | i, done, c :: rest =>
    let done2 := done + c
    let ns := clock i
    ⟨done2, totalSize, bytes_per_sec done2 ns, eta_secs totalSize done2 ns, ns⟩ ::
      download_file_go totalSize clock (i + 1) done2 rest

/-- All progress samples emitted by one download_file call. -/
def download_file_samples (totalSize : Nat) (chunks : List Nat) (clock : Nat → Nat) :
    List Sample :=
  download_file_go totalSize clock 0 0 chunks

/-- Errors surfaced by download_file (main.rs 614-677): transport-level
failures of the request, non-success HTTP statuses (wrapped at main.rs
625-630 into an io::Error whose message renders the status), and local
I/O failures. -/
inductive DlErr where
  | transport (msg : Str)
  | httpStatus (code : Nat)
  | ioErr (msg : Str)
  deriving DecidableEq

/-- Display string of a boxed download (or apply) error, as produced by
e.to_string().  A status error renders its numeric code after the fixed
text of main.rs 628; the standard reason phrases contain no digits, so
omitting them does not affect any digit-substring test. -/
def err_string : DlErr → Str
  | .transport m => m
  | .httpStatus c => cs (r"HTTP error: ") ++ cs (Nat.repr c)
  | .ioErr m => m

/-- The download phase of download_and_apply_update (main.rs 687-699): a
first download_file attempt on the given URL and, whenever it fails with
any error and the URL starts with the secure scheme, a single retry on the
URL with every occurrence of https textually replaced by http.  The
oracle dl gives the outcome of a download_file call per URL; the result
pairs the list of attempted URLs with the outcome that propagates. -/
def download_with_fallback (dl : Str → Except DlErr Unit) (url : Str) :
    List Str × Except DlErr Unit :=
  match dl url with
  | .ok _ => ([url], .ok ())
  | .error e =>
    if List.isPrefixOf (cs (r"https://")) url then
      let httpUrl := replace_all (cs (r"https")) (cs (r"http")) url
      ([url, httpUrl], dl httpUrl)
    else ([url], .error e)

/-- An HTTP response as observed by get_latest_update_url: the declared
content type (none when the header is absent or is not valid text) and
the result of reading the body text. -/
structure Resp where
  contentType : Option Str
  textRes : Except Str Str

/-- The distinct error produced by the HTML content-type guard of
get_latest_update_url (main.rs 726), carrying the response body. -/
def html_guard_msg (text : Str) : Str :=
  cs (r"Received an HTML response instead of JSON. Response: ") ++ text

/-- The response processing of get_latest_update_url (main.rs 720-737):
read the body text, fail distinctly when an HTML content type was
declared, otherwise hand the text to the JSON parse and latestUrl
extraction (modelled by the oracle parse). -/
def process_resp (parse : Str → Except Str Str) (r : Resp) : Except Str Str :=
  match r.textRes with
  | .error e => .error e
  | .ok text =>
    match r.contentType with
    | some ct =>
      if contains_sub (cs (r"text/html")) ct then .error (html_guard_msg text)
      else parse text
    | none => parse text

/-- The fixed bootstrap manifest URL of main.rs 706. -/
def bootstrapUrl : Str :=
  cs (r"https://storage.googleapis.com/dreamio/downloads/Builds/Windows/version.json")

/-- The scheme-substituted bootstrap URL built at main.rs 715. -/
def httpBootstrapUrl : Str := replace_all (cs (r"https")) (cs (r"http")) bootstrapUrl

/-- get_latest_update_url (main.rs 705-738): request the bootstrap
manifest; when the request itself errors, retry exactly once on the
http-substituted URL, propagating that retry's error; the obtained
response goes through the content-type guard and JSON parsing.  The
oracle send gives the outcome of client.get(url).send() per URL; the
result pairs the attempted URLs with the outcome. -/
def get_latest_update_url (send : Str → Except Str Resp)
    (parse : Str → Except Str Str) : List Str × Except Str Str :=
  match send bootstrapUrl with
  | .ok r => ([bootstrapUrl], process_resp parse r)
  | .error _ =>
    match send httpBootstrapUrl with
    | .ok r => ([bootstrapUrl, httpBootstrapUrl], process_resp parse r)
    | .error e => ([bootstrapUrl, httpBootstrapUrl], .error e)

/-- One archive entry as delivered by the zip reader: its stored name,
the outcome of reading its bytes into memory (read_to_end, used for patch
payloads) and of streaming it into a created file (io::copy). -/
structure Entry where
  name : Str
  readRes : Except Str Unit
  copyRes : Except Str Unit

/-- Outcomes of the filesystem operations apply_update performs, supplied
as an oracle so that per-entry failures can be modelled.  patchApply
bundles the body of apply_patch (main.rs 602-612): read the target, run
Bspatch over it, write the result back to the same target. -/
structure Fs where
  createDirAll : Str → Except Str Unit
  existsb : Str → Bool
  removeFile : Str → Except Str Unit
  createFile : Str → Except Str Unit
  patchApply : Str → Except Str Unit

/-- Observable events of apply_update: error reports sent on the channel,
filesystem effects (with opens-for-write made explicit: File::create and
the fs::write of apply_patch), and the per-entry progress report (the
ApplyingProgress and Progress message pair of main.rs 892-905, carrying
the one-based entry index, the entry count and the entry name). -/
inductive Ev where
  | err (msg : Str)
  | mkdir (path : Str)
  | readFile (path : Str)
  | writeOpen (path : Str)
  | removed (path : Str)
  | progress (k n : Nat) (name : Str)
  deriving DecidableEq

/-- Directory branch of the entry loop (main.rs 793-806). -/
def dir_branch (fs : Fs) (name : Str) : List Ev × Bool :=
  match fs.createDirAll name with
  | .ok _ => ([.mkdir name], true)
  | .error _ => ([.err name], false)

/-- Patch branch of the entry loop (main.rs 807-835): read the payload,
then run apply_patch from the suffix-stripped target onto itself. -/
def patch_branch (fs : Fs) (ent : Entry) : List Ev × Bool :=
  match ent.readRes with
  | .error _ => ([.err (with_extension_empty ent.name)], false)
  | .ok _ =>
    match fs.patchApply (with_extension_empty ent.name) with
    | .ok _ => ([.readFile (with_extension_empty ent.name),
                 .writeOpen (with_extension_empty ent.name)], true)
    | .error _ => ([.err (with_extension_empty ent.name)], false)

/-- Delete branch of the entry loop (main.rs 836-851): remove the
suffix-stripped target when it exists; a removal failure is reported but
does not skip the progress report (there is no continue on that path). -/
def delete_branch (fs : Fs) (name : Str) : List Ev × Bool :=
  if fs.existsb (with_extension_empty name) then
    match fs.removeFile (with_extension_empty name) with
    | .ok _ => ([.removed (with_extension_empty name)], true)
    | .error _ => ([.err (with_extension_empty name)], true)
  else ([], true)

/-- Parent-directory creation of the replacement branch (main.rs 853-869). -/
def mk_parent (fs : Fs) (name : Str) : List Ev × Bool :=
  match path_parent name with
  | some p =>
    if fs.existsb p then ([], true)
    else
      match fs.createDirAll p with
      | .ok _ => ([.mkdir p], true)
      | .error _ => ([.err p], false)
  | none => ([], true)

/-- Replacement branch of the entry loop (main.rs 852-891): ensure the
parent directory, create (truncate) the target, then copy the payload.
The create itself opens the target for write even when the copy fails. -/
def replace_branch (fs : Fs) (ent : Entry) : List Ev × Bool :=
  match mk_parent fs ent.name with
  | (evs, false) => (evs, false)
  | (evs, true) =>
    match fs.createFile ent.name with
    | .error _ => (evs ++ [.err ent.name], false)
    | .ok _ =>
      match ent.copyRes with
      | .ok _ => (evs ++ [.writeOpen ent.name], true)
      | .error _ => (evs ++ [.writeOpen ent.name, .err ent.name], false)

/-- Body of the per-entry loop of apply_update (main.rs 783-891) for an
entry the archive delivered: the emitted events, and whether control
reaches the trailing progress report (false exactly on the continue
paths).  The self-file check compares the file-name component of the
unstripped entry name against the running executable's name and fires
before any suffix dispatch. -/
def apply_update_entry (fs : Fs) (exe : Str) (ent : Entry) : List Ev × Bool :=
  if path_file_name ent.name = some exe then ([], false)
  else if ends_with_char '/' ent.name then dir_branch fs ent.name
  else if ends_with (cs (r".patch")) ent.name then patch_branch fs ent
  else if ends_with (cs (r".delete")) ent.name then delete_branch fs ent.name
  else replace_branch fs ent

/-- One full iteration of the entry loop, including the by_index failure
path (main.rs 771-782, reported and skipped without progress) and the
trailing progress report for index i of n. -/
def apply_update_step (fs : Fs) (exe : Str) (n i : Nat) (e : Except Str Entry) :
    List Ev :=
  match e with
  | .error m => [.err m]
  | .ok ent =>
    let r := apply_update_entry fs exe ent
    r.1 ++ (if r.2 then [.progress (i + 1) n ent.name] else [])

/-- Event trace of the whole entry loop of apply_update. -/
def apply_update_events (fs : Fs) (exe : Str) (entries : List (Except Str Entry)) :
    List Ev :=
  (entries.enum).flatMap fun p => apply_update_step fs exe entries.length p.1 p.2

/-- apply_update (main.rs 758-909): fatal only when the staged archive
cannot be read or parsed (the fs::read and ZipArchive::new failures,
modelled as the error case of the archive argument); otherwise the event
trace of the entry loop, with every per-entry failure isolated. -/
def apply_update (fs : Fs) (exe : Str)
    (archive : Except Str (List (Except Str Entry))) : Except Str (List Ev) :=
  match archive with
  | .error e => .error e
  | .ok entries => .ok (apply_update_events fs exe entries)

/-- First arguments of the progress reports in a trace. -/
def progress_firsts (evs : List Ev) : List Nat :=
  evs.filterMap fun e =>
    match e with
    | .progress k _ _ => some k
    | _ => none

/-- Rust e.to_string().contains with pattern 404: the convergence test of
the version-chain loop (main.rs 558). -/
def contains404 (s : Str) : Bool := contains_sub (cs (r"404")) s

/-- Terminal outcomes of the version-chain loop. -/
inductive ChainOutcome where
  | converged
  | failed
  | outOfFuel
  deriving DecidableEq

/-- The post-bootstrap version-chain loop of update_task (main.rs
521-591).  read r is the outcome of the r-th get_version_info call
(successive reads observe the manifest file as it changes); dl c is the
outcome of the c-th download_and_apply_update call.  Returns the terminal
outcome and the number of completed download/apply cycles; the loop is
given explicit fuel since the source loop need not terminate. -/
def update_task_loop (read : Nat → Except Str Str) (dl : Nat → Except DlErr Unit) :
    Nat → Nat → Nat → ChainOutcome × Nat
  | 0, _, c => (.outOfFuel, c)
  | fuel + 1, r, c =>
    match read r with
    | .error _ => (.failed, c)
    | .ok version =>
      match dl c with
      | .error e =>
        if contains404 (err_string e) then (.converged, c) else (.failed, c)
      | .ok _ =>
        match read (r + 1) with
        | .error _ => (.failed, c + 1)
        | .ok newVersion =>
          if newVersion = version then (.converged, c + 1)
          else update_task_loop read dl fuel (r + 2) (c + 1)

/-- Filesystem oracle on which every operation succeeds and every path
exists. -/
def fsAllOk : Fs :=
  ⟨fun _ => .ok (), fun _ => true, fun _ => .ok (), fun _ => .ok (), fun _ => .ok ()⟩

/-- Filesystem oracle on which directory creation fails. -/
def fsDirFail : Fs :=
  ⟨fun _ => .error (cs (r"boom")), fun _ => true, fun _ => .ok (), fun _ => .ok (),
    fun _ => .ok ()⟩

/-- Manifest source that reports the same version code on every read. -/
def readConst : Nat → Except Str Str := fun _ => .ok (cs (r"5"))

/-- Download oracle on which every download/apply cycle succeeds. -/
def dlOk : Nat → Except DlErr Unit := fun _ => .ok ()

/-- Download oracle failing with a transport error whose message happens
to contain the digits 404. -/
def dlT404 : Nat → Except DlErr Unit :=
  fun _ => .error (.transport (cs (r"request timed out after 404 ms")))

/-- Download oracle failing with an HTTP 500 status error. -/
def dlS500 : Nat → Except DlErr Unit := fun _ => .error (.httpStatus 500)

/-- Per-URL download oracle failing with an HTTP 500 status error on the
secure URL and succeeding elsewhere. -/
def dlUrl500 : Str → Except DlErr Unit :=
  fun u => if u = cs (r"https://h/a") then .error (.httpStatus 500) else .ok ()

/-- Per-URL download oracle failing with a transport error everywhere. -/
def dlUrlTFail : Str → Except DlErr Unit :=
  fun _ => .error (.transport (cs (r"connect failure")))

/-- Send oracle failing at transport level on every URL. -/
def sendFail : Str → Except Str Resp := fun _ => .error (cs (r"transport down"))

/-- Parse oracle rejecting every body. -/
def parseFail : Str → Except Str Str := fun _ => .error (cs (r"bad json"))

/-- takeWhile passes over a block of characters the predicate accepts. -/
theorem takeWhile_append_all {α : Type} {p : α → Bool} :
    ∀ {l₁ : List α} (l₂ : List α), (∀ a ∈ l₁, p a = true) →
      (l₁ ++ l₂).takeWhile p = l₁ ++ l₂.takeWhile p
  | [], _, _ => by simp
  | a :: l, l₂, h => by
    have ha : p a = true := h a (by simp)
    simp only [List.cons_append, List.takeWhile_cons, ha, if_true]
    rw [takeWhile_append_all l₂ fun b hb => h b (by simp [hb])]

/-- dropWhile drops a block of characters the predicate accepts. -/
theorem dropWhile_append_all {α : Type} {p : α → Bool} :
    ∀ {l₁ : List α} (l₂ : List α), (∀ a ∈ l₁, p a = true) →
      (l₁ ++ l₂).dropWhile p = l₂.dropWhile p
  | [], _, _ => by simp
  | a :: l, l₂, h => by
    have ha : p a = true := h a (by simp)
    simp only [List.cons_append, List.dropWhile_cons, ha, if_true]
    exact dropWhile_append_all l₂ fun b hb => h b (by simp [hb])

/-- Behaviour of with_extension_empty on a name ending in a dot-suffix
whose tail contains neither a slash nor a further dot: the path is kept
whole exactly when nothing of the last component precedes the dot,
and is otherwise truncated at the dot. -/
theorem with_extension_empty_append {s : Str} (m : Str) (hslash : ∀ a ∈ s, a ≠ '/')
    (hdot : ∀ a ∈ s, a ≠ '.') :
    with_extension_empty (m ++ '.' :: s) =
      if m.reverse.takeWhile (fun c => decide (c ≠ '/')) = [] then m ++ '.' :: s
      else m := by
  have hS : ∀ a ∈ s.reverse, (fun c => decide (c ≠ '/')) a = true := by
    intro a ha
    rw [List.mem_reverse] at ha
    exact decide_eq_true (hslash a ha)
  have hD : ∀ a ∈ s.reverse, (fun c => decide (c ≠ '.')) a = true := by
    intro a ha
    rw [List.mem_reverse] at ha
    exact decide_eq_true (hdot a ha)
  have hrev : (m ++ '.' :: s).reverse = s.reverse ++ '.' :: m.reverse := by
    simp [List.reverse_append]
  have htake : (m ++ '.' :: s).reverse.takeWhile (fun c => decide (c ≠ '/')) =
      s.reverse ++ '.' :: m.reverse.takeWhile (fun c => decide (c ≠ '/')) := by
    rw [hrev, takeWhile_append_all _ hS, List.takeWhile_cons]
    simp
  have hdropD : (s.reverse ++ '.' :: m.reverse.takeWhile
        (fun c => decide (c ≠ '/'))).dropWhile (fun c => decide (c ≠ '.')) =
      '.' :: m.reverse.takeWhile (fun c => decide (c ≠ '/')) := by
    rw [dropWhile_append_all _ hD, List.dropWhile_cons]
    simp
  have hdropS : (m ++ '.' :: s).reverse.dropWhile (fun c => decide (c ≠ '/')) =
      m.reverse.dropWhile (fun c => decide (c ≠ '/')) := by
    rw [hrev, dropWhile_append_all _ hS, List.dropWhile_cons]
    simp
  simp only [with_extension_empty, htake, hdropD, hdropS]
  by_cases hm : m.reverse.takeWhile (fun c => decide (c ≠ '/')) = []
  · rw [if_pos hm, if_pos hm]
  · rw [if_neg hm, if_neg hm, List.takeWhile_append_dropWhile, List.reverse_reverse]

/-- Progress reports distribute over trace concatenation. -/
theorem progress_firsts_append (l₁ l₂ : List Ev) :
    progress_firsts (l₁ ++ l₂) = progress_firsts l₁ ++ progress_firsts l₂ :=
  List.filterMap_append l₁ l₂ _

/-- The parent-creation step never reports progress. -/
theorem mk_parent_no_progress (fs : Fs) (nm : Str) :
    progress_firsts (mk_parent fs nm).1 = [] := by
  unfold mk_parent
  repeat' split
  all_goals rfl

/-- The directory branch never itself reports progress. -/
theorem dir_branch_no_progress (fs : Fs) (nm : Str) :
    progress_firsts (dir_branch fs nm).1 = [] := by
  unfold dir_branch
  split
  all_goals rfl

/-- The patch branch never itself reports progress. -/
theorem patch_branch_no_progress (fs : Fs) (ent : Entry) :
    progress_firsts (patch_branch fs ent).1 = [] := by
  unfold patch_branch
  repeat' split
  all_goals rfl

/-- The delete branch never itself reports progress. -/
theorem delete_branch_no_progress (fs : Fs) (nm : Str) :
    progress_firsts (delete_branch fs nm).1 = [] := by
  unfold delete_branch
  repeat' split
  all_goals rfl

/-- The replacement branch never itself reports progress. -/
theorem replace_branch_no_progress (fs : Fs) (ent : Entry) :
    progress_firsts (replace_branch fs ent).1 = [] := by
  have h0 := mk_parent_no_progress fs ent.name
  unfold replace_branch
  split
  next evs heq =>
    rw [heq] at h0
    exact h0
  next x evs heq =>
    rw [heq] at h0
    have h : progress_firsts evs = [] := h0
    repeat' split
    all_goals show progress_firsts (evs ++ _) = []
    all_goals rw [progress_firsts_append, h]
    all_goals rfl

/-- The entry body of the loop never itself reports progress; the report
is appended by apply_update_step. -/
theorem apply_update_entry_no_progress (fs : Fs) (exe : Str) (ent : Entry) :
    progress_firsts (apply_update_entry fs exe ent).1 = [] := by
  unfold apply_update_entry
  split
  · rfl
  split
  · exact dir_branch_no_progress fs ent.name
  split
  · exact patch_branch_no_progress fs ent
  split
  · exact delete_branch_no_progress fs ent.name
  exact replace_branch_no_progress fs ent

/-- Each loop iteration reports progress at most once, with first
argument the one-based entry index. -/
theorem apply_update_step_progress (fs : Fs) (exe : Str) (n i : Nat)
    (e : Except Str Entry) :
    progress_firsts (apply_update_step fs exe n i e) = [] ∨
      progress_firsts (apply_update_step fs exe n i e) = [i + 1] := by
  cases e with
  | error m => exact Or.inl rfl
  | ok ent =>
    have hsplit : apply_update_step fs exe n i (.ok ent) =
        (apply_update_entry fs exe ent).1 ++
          (if (apply_update_entry fs exe ent).2 then [Ev.progress (i + 1) n ent.name]
           else []) := rfl
    rw [hsplit, progress_firsts_append, apply_update_entry_no_progress fs exe ent]
    cases h : (apply_update_entry fs exe ent).2
    · exact Or.inl rfl
    · exact Or.inr rfl

/-- Progress first-arguments of the enumerated loop form a subsequence of
the one-based index range. -/
theorem progress_firsts_chain (fs : Fs) (exe : Str) (n : Nat) :
    ∀ (l : List (Except Str Entry)) (i0 : Nat),
      List.Sublist
        (progress_firsts ((List.enumFrom i0 l).flatMap
          fun p => apply_update_step fs exe n p.1 p.2))
        (List.range' (i0 + 1) l.length) := by
  intro l
  induction l with
  | nil => intro i0; exact List.nil_sublist _
  | cons e rest ih =>
    intro i0
    have hcons : List.enumFrom i0 (e :: rest) =
        (i0, e) :: List.enumFrom (i0 + 1) rest := rfl
    have hrange : List.range' (i0 + 1) (e :: rest).length =
        (i0 + 1) :: List.range' (i0 + 1 + 1) rest.length := rfl
    rw [hcons, List.flatMap_cons, progress_firsts_append, hrange]
    rcases apply_update_step_progress fs exe n i0 e with h | h <;> rw [h]
    · rw [List.nil_append]
      exact List.Sublist.cons _ (ih (i0 + 1))
    · exact List.Sublist.cons₂ _ (ih (i0 + 1))

/-- Every emitted sample carries the declared total, and its rate and eta
are the computations of main.rs 652-663 on its own cumulative byte count
and elapsed time. -/
theorem download_file_go_spec (t : Nat) (clock : Nat → Nat) :
    ∀ (l : List Nat) (i d : Nat) (s : Sample), s ∈ download_file_go t clock i d l →
      s.total = t ∧ s.rate = bytes_per_sec s.downloaded s.elapsedNs ∧
        s.eta = eta_secs t s.downloaded s.elapsedNs := by
  intro l
  induction l with
  | nil => intro i d s hs; cases hs
  | cons c rest ih =>
    intro i d s hs
    rcases List.mem_cons.mp hs with h | h
    · subst h; exact ⟨rfl, rfl, rfl⟩
    · exact ih _ _ _ h

/-- C1: corrected.  An entry whose UNSTRIPPED name has a file-name
component equal to the running executable's name is skipped entirely: no
event, no filesystem effect, no progress report.  (The claim as stated,
about the resolved suffix-stripped target path, is refuted by
c1_counterexample: the check of main.rs 785-791 runs on the entry name
before the .patch/.delete suffix is stripped.) -/
theorem c1_theorem (fs : Fs) (exe : Str) (n i : Nat) (ent : Entry)
    (h : path_file_name ent.name = some exe) :
    apply_update_step fs exe n i (.ok ent) = [] := by
  have hb : apply_update_entry fs exe ent = ([], false) := by
    unfold apply_update_entry
    rw [if_pos h]
  have hs : apply_update_step fs exe n i (.ok ent) =
      (apply_update_entry fs exe ent).1 ++
        (if (apply_update_entry fs exe ent).2 then [Ev.progress (i + 1) n ent.name]
         else []) := rfl
  rw [hs, hb]
  rfl

/-- C1 witness: a Replace entry named exactly like the executable is
skipped. -/
theorem c1_witness :
    apply_update_step fsAllOk (cs (r"up.exe")) 3 0
      (.ok ⟨cs (r"up.exe"), .ok (), .ok ()⟩) = [] :=
  c1_theorem fsAllOk (cs (r"up.exe")) 3 0 ⟨cs (r"up.exe"), .ok (), .ok ()⟩ (by decide)

/-- C1 counterexample: the Patch entry DreamioUpdater.exe.patch resolves
to the target DreamioUpdater.exe, whose file name equals the running
executable's name, yet apply_update reads and opens that very target for
write (and reports progress) instead of skipping the entry. -/
theorem c1_counterexample :
    apply_update fsAllOk (cs (r"DreamioUpdater.exe"))
        (.ok [.ok ⟨cs (r"DreamioUpdater.exe.patch"), .ok (), .ok ()⟩]) =
      .ok [Ev.readFile (cs (r"DreamioUpdater.exe")),
        Ev.writeOpen (cs (r"DreamioUpdater.exe")),
        Ev.progress 1 1 (cs (r"DreamioUpdater.exe.patch"))] ∧
    with_extension_empty (cs (r"DreamioUpdater.exe.patch")) =
      cs (r"DreamioUpdater.exe") ∧
    path_file_name (cs (r"DreamioUpdater.exe")) = some (cs (r"DreamioUpdater.exe")) :=
  ⟨rfl, rfl, rfl⟩

/-- C4: corrected.  The progress callback fires once after each entry
that is NOT skipped (self-file skip, archive-access failure, or a
handling failure other than a delete-removal failure all jump to the next
entry before the report); its first arguments are the one-based indices
of the non-skipped entries, hence a strictly increasing subsequence of 1..n
rather than all of 1..n.  (The claim as stated, that skipped and failed
entries also report, is refuted by c4_counterexample.) -/
theorem c4_theorem (fs : Fs) (exe : Str) (entries : List (Except Str Entry)) :
    apply_update fs exe (.ok entries) = .ok (apply_update_events fs exe entries) ∧
    List.Sublist (progress_firsts (apply_update_events fs exe entries))
      (List.range' 1 entries.length) ∧
    ∀ n i e, progress_firsts (apply_update_step fs exe n i e) = [] ∨
      progress_firsts (apply_update_step fs exe n i e) = [i + 1] := by
  refine ⟨rfl, ?_, fun n i e => apply_update_step_progress fs exe n i e⟩
  have h := progress_firsts_chain fs exe entries.length entries 0
  simpa [apply_update_events, List.enum] using h

/-- C4 counterexample: a one-entry archive whose single directory entry
fails to be created produces zero progress reports, not one. -/
theorem c4_counterexample :
    apply_update fsDirFail (cs (r"up.exe"))
        (.ok [.ok ⟨cs (r"data/"), .ok (), .ok ()⟩]) =
      .ok [Ev.err (cs (r"data/"))] ∧
    progress_firsts [Ev.err (cs (r"data/"))] = [] :=
  ⟨rfl, rfl⟩

/-- C6: corrected.  For a Patch or Delete entry name written as m followed
by the reserved suffix: when m is nonempty and does not end in a slash
(equivalently, the entry's file-name component is more than the bare
suffix), the processed target is exactly m, the name with the suffix
stripped; but when the file-name component is exactly the suffix (m empty
or ending in a slash), with_extension applies the hidden-file rule and the
target path is the UNCHANGED entry name.  (The claim as stated, covering
also the bare-suffix file names, is refuted by c6_counterexample.) -/
theorem c6_theorem :
    (∀ m : Str, m.reverse.takeWhile (fun c => decide (c ≠ '/')) ≠ [] →
      with_extension_empty (m ++ cs (r".patch")) = m ∧
      with_extension_empty (m ++ cs (r".delete")) = m) ∧
    (∀ m : Str, m.reverse.takeWhile (fun c => decide (c ≠ '/')) = [] →
      with_extension_empty (m ++ cs (r".patch")) = m ++ cs (r".patch") ∧
      with_extension_empty (m ++ cs (r".delete")) = m ++ cs (r".delete")) := by
  have hp : cs (r".patch") = '.' :: cs (r"patch") := rfl
  have hd : cs (r".delete") = '.' :: cs (r"delete") := rfl
  constructor
  · intro m hm
    constructor
    · rw [hp, with_extension_empty_append m (by decide) (by decide), if_neg hm]
    · rw [hd, with_extension_empty_append m (by decide) (by decide), if_neg hm]
  · intro m hm
    constructor
    · rw [hp, with_extension_empty_append m (by decide) (by decide), if_pos hm]
    · rw [hd, with_extension_empty_append m (by decide) (by decide), if_pos hm]

/-- C6 witness: dir/f.patch resolves to dir/f, and b.delete to b. -/
theorem c6_witness :
    with_extension_empty (cs (r"dir/f") ++ cs (r".patch")) = cs (r"dir/f") ∧
    with_extension_empty (cs (r"b") ++ cs (r".delete")) = cs (r"b") :=
  ⟨(c6_theorem.1 (cs (r"dir/f")) (by decide)).1,
   (c6_theorem.1 (cs (r"b")) (by decide)).2⟩

/-- C6 counterexample: the entry name a/.patch, whose file-name component
is exactly the reserved suffix, resolves to itself rather than to the
suffix-stripped a/ the claim requires. -/
theorem c6_counterexample :
    with_extension_empty (cs (r"a/.patch")) = cs (r"a/.patch") ∧
    ¬ with_extension_empty (cs (r"a/.patch")) =
        (cs (r"a/.patch")).take ((cs (r"a/.patch")).length - 6) := by
  decide

/-- C7: confirmed.  apply_update is fatal exactly on an archive
read/parse failure; when the archive is readable the pass always
completes, each by_index failure is recorded (as an error event) without
a progress report, and the trace of an archive decomposes entry by entry,
so processing always continues past a failed entry. -/
theorem c7_theorem (fs : Fs) (exe : Str) :
    (∀ msg, apply_update fs exe (.error msg) = .error msg) ∧
    (∀ entries, apply_update fs exe (.ok entries) =
      .ok (apply_update_events fs exe entries)) ∧
    (∀ n i msg, apply_update_step fs exe n i (.error msg) = [Ev.err msg]) ∧
    (∀ e rest, apply_update_events fs exe (e :: rest) =
      apply_update_step fs exe (rest.length + 1) 0 e ++
        (List.enumFrom 1 rest).flatMap
          fun p => apply_update_step fs exe (rest.length + 1) p.1 p.2) :=
  ⟨fun _ => rfl, fun _ => rfl, fun _ _ _ => rfl, fun _ _ => rfl⟩

/-- C2: corrected.  When the first download attempt on a secure URL fails
with ANY error, not only a transport-level one, a single insecure retry is
made, against the URL with every occurrence of https textually replaced by
http (not only the scheme); a non-https URL propagates its error with no
retry; a successful first attempt makes exactly one request.  (The claim
that non-transport failures are propagated without an insecure retry is
refuted by c2_counterexample, where an HTTP 500 status error is retried.) -/
theorem c2_theorem (dl : Str → Except DlErr Unit) (url : Str) :
    (∀ u : Unit, dl url = .ok u → download_with_fallback dl url = ([url], .ok ())) ∧
    (∀ e, dl url = .error e → List.isPrefixOf (cs (r"https://")) url = true →
      download_with_fallback dl url =
        ([url, replace_all (cs (r"https")) (cs (r"http")) url],
          dl (replace_all (cs (r"https")) (cs (r"http")) url))) ∧
    (∀ e, dl url = .error e → List.isPrefixOf (cs (r"https://")) url = false →
      download_with_fallback dl url = ([url], .error e)) := by
  refine ⟨?_, ?_, ?_⟩
  · intro u h; cases u; simp [download_with_fallback, h]
  · intro e h hp; simp [download_with_fallback, h, hp]
  · intro e h hp; simp [download_with_fallback, h, hp]

/-- C2 witness: a transport failure on a secure URL is retried exactly
once on the scheme-substituted URL and that retry's outcome propagates. -/
theorem c2_witness :
    download_with_fallback dlUrlTFail (cs (r"https://a")) =
      ([cs (r"https://a"),
        replace_all (cs (r"https")) (cs (r"http")) (cs (r"https://a"))],
        dlUrlTFail (replace_all (cs (r"https")) (cs (r"http")) (cs (r"https://a")))) :=
  (c2_theorem dlUrlTFail (cs (r"https://a"))).2.1
    (.transport (cs (r"connect failure"))) rfl (by decide)

/-- C2 counterexample: a download failing with the non-transport error
HTTP status 500 on a secure URL is nevertheless retried over http (two
attempted URLs), where the claim requires the error to propagate with no
insecure retry. -/
theorem c2_counterexample :
    dlUrl500 (cs (r"https://h/a")) = .error (.httpStatus 500) ∧
    download_with_fallback dlUrl500 (cs (r"https://h/a")) =
      ([cs (r"https://h/a"), cs (r"http://h/a")], .ok ()) :=
  ⟨rfl, rfl⟩

/-- C3: corrected.  A download/apply failure in the version-chain loop is
treated as convergence exactly when the rendered error message contains
the digit substring 404: that holds for the HTTP 404 status error and
fails for the HTTP 500 one, but it also holds for any other error whose
message happens to contain 404 (refuted as an iff by c3_counterexample,
where a transport error converges). -/
theorem c3_theorem (read : Nat → Except Str Str) (dl : Nat → Except DlErr Unit)
    (fuel : Nat) (v : Str) (e : DlErr)
    (h0 : read 0 = .ok v) (hd : dl 0 = .error e) :
    update_task_loop read dl (fuel + 1) 0 0 =
      (if contains404 (err_string e) then ChainOutcome.converged
       else ChainOutcome.failed, 0) ∧
    contains404 (err_string (DlErr.httpStatus 404)) = true ∧
    contains404 (err_string (DlErr.httpStatus 500)) = false := by
  refine ⟨?_, by decide, by decide⟩
  simp only [update_task_loop, h0, hd]
  cases hc : contains404 (err_string e) <;> simp [hc]

/-- C3 witness: an HTTP 500 status failure of the first cycle makes the
loop fail, by the 404-substring dispatch. -/
theorem c3_witness :
    update_task_loop readConst dlS500 3 0 0 =
      (if contains404 (err_string (DlErr.httpStatus 500)) then ChainOutcome.converged
       else ChainOutcome.failed, 0) ∧
    contains404 (err_string (DlErr.httpStatus 404)) = true ∧
    contains404 (err_string (DlErr.httpStatus 500)) = false :=
  c3_theorem readConst dlS500 2 (cs (r"5")) (.httpStatus 500) rfl rfl

/-- C3 counterexample: a transport error (no HTTP status at all) whose
message happens to contain the digits 404 makes the loop exit as
converged, where the claim requires every non-404-status error to produce
the Failed outcome. -/
theorem c3_counterexample :
    update_task_loop readConst dlT404 5 0 0 = (ChainOutcome.converged, 0) ∧
    dlT404 0 = .error (.transport (cs (r"request timed out after 404 ms"))) :=
  ⟨rfl, rfl⟩

/-- C8: confirmed.  When the first download/apply cycle succeeds and the
manifest re-read reports the same version code as the one just processed,
the loop terminates as converged after exactly one cycle; a constant
manifest source is the special case read 0 = read 1. -/
theorem c8_theorem (read : Nat → Except Str Str) (dl : Nat → Except DlErr Unit)
    (fuel : Nat) (v : Str) (h0 : read 0 = .ok v) (hd : dl 0 = .ok ())
    (h1 : read 1 = .ok v) :
    update_task_loop read dl (fuel + 1) 0 0 = (ChainOutcome.converged, 1) := by
  simp [update_task_loop, h0, hd, h1]

/-- C8 witness: a manifest source returning the same version code on
every read converges after exactly one download/apply cycle. -/
theorem c8_witness :
    update_task_loop readConst dlOk 4 0 0 = (ChainOutcome.converged, 1) :=
  c8_theorem readConst dlOk 3 (cs (r"5")) rfl rfl rfl

/-- C10: confirmed.  The bootstrap manifest fetch has its own fallback:
when the send on the https URL fails, exactly one retry is made on the
http-substituted URL; an error of that retry propagates as is, and a
response obtained either way goes through the content-type guard and JSON
parsing (process_resp); a successful first send makes exactly one
request. -/
theorem c10_theorem (send : Str → Except Str Resp) (parse : Str → Except Str Str) :
    (∀ e, send bootstrapUrl = .error e →
      (∀ e2, send httpBootstrapUrl = .error e2 →
        get_latest_update_url send parse =
          ([bootstrapUrl, httpBootstrapUrl], .error e2)) ∧
      (∀ rp, send httpBootstrapUrl = .ok rp →
        get_latest_update_url send parse =
          ([bootstrapUrl, httpBootstrapUrl], process_resp parse rp))) ∧
    (∀ rp, send bootstrapUrl = .ok rp →
      get_latest_update_url send parse = ([bootstrapUrl], process_resp parse rp)) := by
  constructor
  · intro e he
    constructor
    · intro e2 he2; simp [get_latest_update_url, he, he2]
    · intro rp hrp; simp [get_latest_update_url, he, hrp]
  · intro rp hrp; simp [get_latest_update_url, hrp]

/-- C10 witness: with both sends failing at transport level, exactly the
two URLs are attempted and the retry's error propagates. -/
theorem c10_witness :
    get_latest_update_url sendFail parseFail =
      ([bootstrapUrl, httpBootstrapUrl], .error (cs (r"transport down"))) :=
  ((c10_theorem sendFail parseFail).1 (cs (r"transport down")) rfl).1
    (cs (r"transport down")) rfl

/-- C9: confirmed.  Every sample emitted while less than one full second
has elapsed reports an instantaneous rate of exactly zero and hence an
eta of zero, however many bytes are already downloaded. -/
theorem c9_theorem (t : Nat) (chunks : List Nat) (clock : Nat → Nat) (s : Sample)
    (hs : s ∈ download_file_samples t chunks clock) (h : s.elapsedNs < 1000000000) :
    s.rate = 0 ∧ s.eta = 0 := by
  obtain ⟨-, hrate, heta⟩ := download_file_go_spec t clock chunks 0 0 s hs
  have hz : s.elapsedNs / 1000000000 = 0 := Nat.div_eq_of_lt h
  have hr0 : bytes_per_sec s.downloaded s.elapsedNs = 0 := by
    simp [bytes_per_sec, hz]
  exact ⟨hrate.trans hr0, by rw [heta]; simp [eta_secs, hr0]⟩

/-- C9 witness: the sample emitted after a 3-byte chunk at 7 elapsed
nanoseconds has rate zero and eta zero. -/
theorem c9_witness :
    (⟨3, 5, 0, 0, 7⟩ : Sample).rate = 0 ∧ (⟨3, 5, 0, 0, 7⟩ : Sample).eta = 0 :=
  c9_theorem 5 [3] (fun _ => 7) ⟨3, 5, 0, 0, 7⟩ (by decide) (by decide)

/-- C5: corrected.  The eta of an emitted sample is zero whenever the
instantaneous rate is zero; but for an unknown-length stream (total zero)
with a positive byte count and positive rate, the u64 subtraction wraps
and the eta is the truncated, saturated quotient of two to the 64 minus
the downloaded bytes by the rate, which in the claim's own scenario is
huge rather than zero (c5_counterexample; a debug build would panic on
the subtraction instead of wrapping). -/
theorem c5_theorem :
    (∀ (t : Nat) (chunks : List Nat) (clock : Nat → Nat) (s : Sample),
      s ∈ download_file_samples t chunks clock → s.rate = 0 → s.eta = 0) ∧
    (∀ d ns : Nat, 0 < d → d < U64 → 0 < bytes_per_sec d ns →
      eta_secs 0 d ns =
        min (Int.toNat ⌊((U64 - d : Nat) : ℚ) / bytes_per_sec d ns⌋) (U64 - 1)) := by
  constructor
  · intro t chunks clock s hs hr
    obtain ⟨-, hrate, heta⟩ := download_file_go_spec t clock chunks 0 0 s hs
    have hr0 : bytes_per_sec s.downloaded s.elapsedNs = 0 := hrate ▸ hr
    rw [heta]
    simp [eta_secs, hr0]
  · intro d ns hd hdU hr
    have hmod : d % U64 = d := Nat.mod_eq_of_lt hdU
    have hlt : U64 - d < U64 := Nat.sub_lt (by decide) hd
    have hws : wrap_sub 0 d = U64 - d := by
      simp [wrap_sub, hmod, Nat.mod_eq_of_lt hlt]
    simp [eta_secs, hr, hws]

/-- C5 witness: a zero-rate sample has eta zero, and the wrapped formula
for total zero at the instantiation of the second conjunct. -/
theorem c5_witness :
    (⟨2, 4, 0, 0, 9⟩ : Sample).eta = 0 ∧
    eta_secs 0 8192 1000000000 =
      min (Int.toNat ⌊((U64 - 8192 : Nat) : ℚ) / bytes_per_sec 8192 1000000000⌋)
        (U64 - 1) :=
  ⟨c5_theorem.1 4 [2] (fun _ => 9) ⟨2, 4, 0, 0, 9⟩ (by decide) rfl,
   c5_theorem.2 8192 1000000000 (by decide) (by decide) (by norm_num [bytes_per_sec])⟩

/-- C5 counterexample: the very sample of the claim's scenario (total
zero, 8192 bytes downloaded, one second elapsed) has a positive rate and
an eta of 2251799813685247 seconds, not zero: the u64 subtraction
wrapped. -/
theorem c5_counterexample :
    download_file_samples 0 [8192] (fun _ => 1000000000) =
      [⟨8192, 0, 8192, 2251799813685247, 1000000000⟩] ∧
    (0 : ℚ) < 8192 ∧ (2251799813685247 : Nat) ≠ 0 := by
  refine ⟨?_, by norm_num, by decide⟩
  norm_num [download_file_samples, download_file_go, eta_secs, bytes_per_sec,
    wrap_sub, U64, Sample.mk.injEq]
  decide

end Dreamio
